import Mathlib

/-!
Verification of the CareerGenie matching frontend and of the matching-engine
contracts stated in its specification.

The React frontend (App.js, components/JobSearch.js, and the unnamed
component variants) is embedded shallowly: each handler becomes a pure Lean
function from its input state to its updated state together with the network
request it issues, with `Option` marking whether a request is issued at all.
The backend matching engine (hybrid scorer, gap analysis, cache and
single-flight coordinator) is not part of the repository snapshot, so those
components are modelled directly from the specification text; each such
definition carries a doc comment saying so.
-/

namespace CareerGenie

/-- JavaScript string coercion for the idiom a OR b on strings: a string is
falsy exactly when it is empty, so the expression yields b when a is empty
and a otherwise. -/
def jsOr (a b : String) : String := if a = "" then b else a

/-! ## Score classification (frontend) -/

/-- Embeds getScoreColor from App.js (lines 283-288): CSS class buckets with
thresholds 80, 60 and 40. -/
def appGetScoreColor (score : ℚ) : String :=
  if 80 ≤ score then "text-green-600 bg-green-100 border-green-300"
  else if 60 ≤ score then "text-yellow-600 bg-yellow-100 border-yellow-300"
  else if 40 ≤ score then "text-orange-600 bg-orange-100 border-orange-300"
  else "text-red-600 bg-red-100 border-red-300"

/-- Embeds getScoreColor from the unnamed JobMatches component variant
(part_004, lines 118-123): CSS class buckets with thresholds 80, 65 and 50. -/
def jmGetScoreColor (score : ℚ) : String :=
  if 80 ≤ score then "text-green-600 bg-green-100 border-green-300"
  else if 65 ≤ score then "text-yellow-600 bg-yellow-100 border-yellow-300"
  else if 50 ≤ score then "text-orange-600 bg-orange-100 border-orange-300"
  else "text-red-600 bg-red-100 border-red-300"

/-- Tier index (0 = best) of a getScoreColor CSS class string. -/
def colorBand (c : String) : Nat :=
  if c = "text-green-600 bg-green-100 border-green-300" then 0
  else if c = "text-yellow-600 bg-yellow-100 border-yellow-300" then 1
  else if c = "text-orange-600 bg-orange-100 border-orange-300" then 2
  else 3

/-- Modelled from the spec: the Hybrid Scorer recommendation tier
(section 4.4); the backend scorer itself is absent from the repository
snapshot. Thresholds 80, 65, 50. -/
def recommendation (score : ℚ) : String :=
  if 80 ≤ score then "Excellent Match"
  else if 65 ≤ score then "Strong Match"
  else if 50 ≤ score then "Good Match"
  else "Weak Match"

/-- Tier index (0 = best) of a recommendation string. -/
def tierBand (r : String) : Nat :=
  if r = "Excellent Match" then 0
  else if r = "Strong Match" then 1
  else if r = "Good Match" then 2
  else 3

/-- C1: the claim asserts that every score-to-tier boundary in the program
agrees with the recommendation thresholds 80, 65, 50.  It is false: at score
60 the App.js getScoreColor places the score in the second band (its middle
thresholds are 60 and 40), while the recommendation tiers place 60 in the
third band. -/
theorem c1_counterexample :
    colorBand (appGetScoreColor 60) = 1 ∧ tierBand (recommendation 60) = 2 ∧
      colorBand (appGetScoreColor 60) ≠ tierBand (recommendation 60) := by
  refine ⟨?_, ?_, ?_⟩ <;> decide

/-- C1 (amended): the recommendation tier is derived from the score by the
fixed thresholds 80, 65, 50, and the getScoreColor of the unnamed JobMatches
variant (part_004) agrees with those boundaries at every score; but the
getScoreColor of App.js uses the distinct boundaries 80, 60, 40, so its bands
do not agree with the recommendation tiers. -/
theorem c1_amended (s : ℚ) :
    colorBand (jmGetScoreColor s) = tierBand (recommendation s)
    ∧ (80 ≤ s → recommendation s = "Excellent Match")
    ∧ (65 ≤ s → s < 80 → recommendation s = "Strong Match")
    ∧ (50 ≤ s → s < 65 → recommendation s = "Good Match")
    ∧ (s < 50 → recommendation s = "Weak Match") := by
  by_cases h1 : 80 ≤ s
  · simp only [jmGetScoreColor, recommendation, if_pos h1]
    refine ⟨by decide, fun _ => trivial, ?_, ?_, ?_⟩ <;> intros <;> exfalso <;> linarith
  · by_cases h2 : 65 ≤ s
    · simp only [jmGetScoreColor, recommendation, if_neg h1, if_pos h2]
      refine ⟨by decide, ?_, fun _ _ => trivial, ?_, ?_⟩ <;> intros <;> exfalso <;> linarith
    · by_cases h3 : 50 ≤ s
      · simp only [jmGetScoreColor, recommendation, if_neg h1, if_neg h2, if_pos h3]
        refine ⟨by decide, ?_, ?_, fun _ _ => trivial, ?_⟩ <;> intros <;> exfalso <;> linarith
      · simp only [jmGetScoreColor, recommendation, if_neg h1, if_neg h2, if_neg h3]
        refine ⟨by decide, ?_, ?_, ?_, fun _ => trivial⟩ <;> intros <;> exfalso <;> linarith

/-- C1 (amended) at score 70: the part_004 band agrees with the
recommendation tier, and the recommendation is Strong Match. -/
theorem c1_amended_witness :
    colorBand (jmGetScoreColor 70) = tierBand (recommendation 70)
    ∧ recommendation 70 = "Strong Match" :=
  ⟨(c1_amended 70).1, (c1_amended 70).2.2.1 (by norm_num) (by norm_num)⟩

/-! ## Star rating (frontend) -/

/-- JavaScript Math.round: rounds half toward positive infinity. -/
def jsRound (q : ℚ) : ℤ := ⌊q + 1 / 2⌋

/-- Embeds getScoreStars from App.js (lines 290-293) and part_004 (lines
125-128): five stars are rendered, star i being filled exactly when
i is below Math.round of score over 20. -/
def getScoreStars (score : ℚ) : List Bool :=
  (List.range 5).map fun i => decide ((i : ℤ) < jsRound (score / 20))

/-- Number of filled stars rendered for a score. -/
def filledStars (score : ℚ) : Nat := (getScoreStars score).count true

theorem countRange (k : Nat) (n : ℤ) :
    (List.range k).countP (fun (i : ℕ) => decide ((i : ℤ) < n)) = min n.toNat k := by
  induction k with
  | zero => simp
  | succ k ih =>
    rw [List.range_succ, List.countP_append, ih]
    by_cases h : (k : ℤ) < n <;> simp [List.countP_cons, h] <;> omega

theorem filledStars_eq (score : ℚ) :
    filledStars score = min (jsRound (score / 20)).toNat 5 := by
  unfold filledStars getScoreStars
  rw [List.count_eq_countP, List.countP_map]
  rw [show ((· == true) ∘ fun i => decide ((i : ℤ) < jsRound (score / 20)))
        = fun i => decide ((i : ℤ) < jsRound (score / 20)) from ?_]
  · exact countRange 5 (jsRound (score / 20))
  · funext i
    simp

theorem jsRound_mono {a b : ℚ} (h : a ≤ b) : jsRound a ≤ jsRound b :=
  Int.floor_le_floor (by linarith)

/-- C10: the star rating for a score in the range 0 to 100 is
Math.round of score over 20 filled stars out of five; the filled count is at
most five and is monotonically non-decreasing in the score. -/
theorem c10_star_rating (s t : ℚ) (h0 : 0 ≤ s) (h1 : s ≤ 100) (hst : s ≤ t) :
    filledStars s = (jsRound (s / 20)).toNat
    ∧ filledStars s ≤ 5
    ∧ filledStars s ≤ filledStars t := by
  have hb : jsRound (s / 20) ≤ 5 := by
    have : jsRound (s / 20) ≤ jsRound (100 / 20) := by
      apply jsRound_mono
      linarith
    calc jsRound (s / 20) ≤ jsRound (100 / 20) := this
      _ = 5 := by rw [jsRound, Int.floor_eq_iff] <;> norm_num
  refine ⟨?_, ?_, ?_⟩
  · rw [filledStars_eq]
    omega
  · rw [filledStars_eq]
    omega
  · rw [filledStars_eq, filledStars_eq]
    have : jsRound (s / 20) ≤ jsRound (t / 20) := by
      apply jsRound_mono
      linarith
    omega

/-- C10 at scores 55 and 80: three filled stars at 55, bounded by five, and
no fewer at 80. -/
theorem c10_star_rating_witness :
    filledStars 55 = (jsRound (55 / 20)).toNat
    ∧ filledStars 55 ≤ 5
    ∧ filledStars 55 ≤ filledStars 80 :=
  c10_star_rating 55 80 (by norm_num) (by norm_num) (by norm_num)

/-! ## Match requests (frontend) -/

/-- Request body sent to the rag match-realtime endpoint by the matchJobs
routine of App.js (lines 239-246), and by the fetchMatches routine of the
unnamed JobMatches variant in part_000 (lines 21-28), which shares the same
shape. -/
structure MatchRequest where
  resume_text : String
  job_query : String
  location : String
  num_jobs : Nat
  top_k : Nat
  use_cache : Bool
  deriving DecidableEq, Repr

/-- Embeds matchJobs from App.js (lines 225-247): on an empty resume text or
job query it clears the matched-jobs list and issues no request; otherwise it
posts a request whose location defaults to India when the stored location is
empty. -/
def appMatchJobsStep (resumeText jobQuery jobLocation : String)
    (matchedJobs : List String) : List String × Option MatchRequest :=
  if resumeText = "" ∨ jobQuery = "" then ([], none)
  else (matchedJobs,
    some ⟨resumeText, jobQuery, jsOr jobLocation "India", 30, 10, true⟩)

/-- Search filters kept by the part_004 frontend variant; an absent or falsy
field is represented by the JavaScript falsy value of its type. -/
structure Filters where
  minMatchScore : ℚ
  experienceLevel : String
  postedWithinDays : Nat
  excludeRemote : Bool
  deriving DecidableEq, Repr

/-- Request body sent by matchJobs of the unnamed JobMatches variant
(part_004, lines 54-65). -/
structure JmMatchRequest where
  resume_text : String
  job_query : String
  location : String
  num_jobs : Nat
  top_k : Nat
  min_match_score : ℚ
  experience_level : Option String
  posted_within_days : Nat
  exclude_remote : Bool
  deriving DecidableEq, Repr

/-- Embeds matchJobs from part_004 (lines 42-71): the same empty-input guard
as App.js, and a request body carrying the filters with their JavaScript
falsy-defaults translated literally: a zero minimum score becomes 40, an empty
experience level becomes null, a zero posted-within window becomes 14. -/
def jmMatchJobsStep (resumeText jobQuery jobLocation : String) (filters : Filters)
    (matchedJobs : List String) : List String × Option JmMatchRequest :=
  if resumeText = "" ∨ jobQuery = "" then ([], none)
  else (matchedJobs,
    some ⟨resumeText, jobQuery, jsOr jobLocation "India", 50, 10,
      (if filters.minMatchScore = 0 then 40 else filters.minMatchScore),
      (if filters.experienceLevel = "" then none else some filters.experienceLevel),
      (if filters.postedWithinDays = 0 then 14 else filters.postedWithinDays),
      filters.excludeRemote⟩)

/-- Embeds fetchMatches from the unnamed JobMatches variant in part_000
(lines 11-28): the guard returns without touching the job list, and the
location field is the JavaScript expression location OR empty-string, which
leaves an empty location empty. -/
def part000FetchStep (resumeText jobQuery location : String)
    (jobs : List String) : List String × Option MatchRequest :=
  if resumeText = "" ∨ jobQuery = "" then (jobs, none)
  else (jobs, some ⟨resumeText, jobQuery, jsOr location "", 30, 10, true⟩)

/-- Embeds handleSearch from components/JobSearch.js (lines 49-79) and the
inline JobSearch of App.js (lines 58-82): an empty trimmed query aborts;
otherwise the parent receives the trimmed query and a location defaulting to
India when the trimmed location is empty. -/
def handleSearch (query location : String) : Option (String × String) :=
  if query.trim = "" then none
  else some (query.trim, jsOr location.trim "India")

/-- C8: the frontend never issues a match request with an empty required
field: when the resume text or job query is empty, the App.js and part_004
matchJobs routines clear the matched-jobs list and issue no request (the
part_000 fetchMatches likewise issues none), and every request that is
issued carries a non-empty resume text and job query, so the backend
empty-input rejection is unreachable from this client. -/
theorem c8_empty_input_guard (rt q loc : String) (f : Filters)
    (cur : List String) :
    (rt = "" ∨ q = "" →
      appMatchJobsStep rt q loc cur = ([], none)
      ∧ jmMatchJobsStep rt q loc f cur = ([], none)
      ∧ (part000FetchStep rt q loc cur).2 = none)
    ∧ (∀ req, (appMatchJobsStep rt q loc cur).2 = some req →
        req.resume_text ≠ "" ∧ req.job_query ≠ "")
    ∧ (∀ req, (jmMatchJobsStep rt q loc f cur).2 = some req →
        req.resume_text ≠ "" ∧ req.job_query ≠ "") := by
  by_cases h : rt = "" ∨ q = ""
  · simp [appMatchJobsStep, jmMatchJobsStep, part000FetchStep, h]
  · push_neg at h
    simp [appMatchJobsStep, jmMatchJobsStep, part000FetchStep, h.1, h.2]

/-- C8 at an empty resume text: both matchJobs variants clear the list and
issue no request, and part_000 issues none. -/
theorem c8_empty_input_guard_witness :
    appMatchJobsStep "" "engineer" "Pune" ["job1"] = ([], none)
    ∧ jmMatchJobsStep "" "engineer" "Pune" ⟨40, "", 14, false⟩ ["job1"] = ([], none)
    ∧ (part000FetchStep "" "engineer" "Pune" ["job1"]).2 = none :=
  (c8_empty_input_guard "" "engineer" "Pune" ⟨40, "", 14, false⟩ ["job1"]).1
    (Or.inl rfl)

/-- C6: the claim asserts that every match request constructed with an empty
location carries the location India.  It is false for the JobMatches variant
in part_000: its fetchMatches sends the JavaScript expression location OR
empty-string, so an empty location is sent as the empty string, not India. -/
theorem c6_counterexample :
    Option.map MatchRequest.location
        (part000FetchStep "resume text" "data scientist" "" []).2 = some ""
    ∧ ("" : String) ≠ "India" := by
  refine ⟨?_, by decide⟩
  simp [part000FetchStep, jsOr]

/-- C6 (amended): the matchJobs routines of App.js and part_004 send the
location India whenever the stored location is empty, and handleSearch
stores India whenever the trimmed location input is empty; but the part_000
fetchMatches variant sends the empty string instead, relying on the backend
default. -/
theorem c6_amended (rt q sq sl : String) (f : Filters) (cur : List String) :
    (∀ req, (appMatchJobsStep rt q "" cur).2 = some req → req.location = "India")
    ∧ (∀ req, (jmMatchJobsStep rt q "" f cur).2 = some req → req.location = "India")
    ∧ (sl.trim = "" → ∀ out, handleSearch sq sl = some out → out.2 = "India") := by
  refine ⟨?_, ?_, ?_⟩
  · intro req hreq
    by_cases h : rt = "" ∨ q = ""
    · simp [appMatchJobsStep, h] at hreq
    · simp [appMatchJobsStep, h] at hreq
      simp [← hreq, jsOr]
  · intro req hreq
    by_cases h : rt = "" ∨ q = ""
    · simp [jmMatchJobsStep, h] at hreq
    · simp [jmMatchJobsStep, h] at hreq
      simp [← hreq, jsOr]
  · intro hsl out hout
    by_cases h : sq.trim = ""
    · simp [handleSearch, h] at hout
    · simp [handleSearch, h] at hout
      simp [← hout, hsl, jsOr]

/-- C6 (amended) at a concrete empty location: the App.js matchJobs request
carries the location India. -/
theorem c6_amended_witness :
    Option.map MatchRequest.location
        (appMatchJobsStep "my resume" "engineer" "" []).2 = some "India" := by
  cases hreq : (appMatchJobsStep "my resume" "engineer" "" []).2 with
  | none => simp [appMatchJobsStep] at hreq
  | some req =>
    simp [hreq,
      (c6_amended "my resume" "engineer" "q" "" ⟨40, "", 14, false⟩ []).1 req hreq]

/-! ## Resume upload (frontend) -/

/-- A selected browser file: its name and MIME type. -/
structure JsFile where
  name : String
  mime : String
  deriving DecidableEq, Repr

/-- MIME types accepted by handleFileUpload (App.js line 471, part_002
line 241). -/
def validTypes : List String :=
  ["application/pdf", "application/msword",
   "application/vnd.openxmlformats-officedocument.wordprocessingml.document"]

/-- Upload-related component state of App.js and part_002. -/
structure UploadState where
  uploadError : Option String
  uploading : Bool
  resumeText : String
  deriving DecidableEq, Repr

/-- Embeds handleFileUpload from App.js (lines 466-488) and part_002 (lines
237-253): a missing file returns with no state change and no request; a file
of invalid MIME type sets the upload error and returns; otherwise the upload
request with the file is issued. -/
def handleFileUpload (file : Option JsFile) (st : UploadState) :
    UploadState × Option JsFile :=
  match file with
  | none => (st, none)
  | some f =>
    if f.mime ∉ validTypes then
      ({ st with uploadError := some "Please upload a PDF or DOCX file" }, none)
    else
      ({ st with uploading := true, uploadError := none }, some f)

/-- C9: resume upload validates the file type before any network call: a
file whose MIME type is not PDF, msword or the DOCX type sets the upload
error and issues no request; a missing file changes nothing; and any issued
request carries a valid MIME type. -/
theorem c9_upload_validation (file : Option JsFile) (st : UploadState) :
    (file = none → handleFileUpload file st = (st, none))
    ∧ (∀ f, file = some f → f.mime ∉ validTypes →
        handleFileUpload file st
          = ({ st with uploadError := some "Please upload a PDF or DOCX file" },
              none))
    ∧ (∀ f, (handleFileUpload file st).2 = some f → f.mime ∈ validTypes) := by
  refine ⟨?_, ?_, ?_⟩
  · rintro rfl
    rfl
  · rintro f rfl hf
    simp [handleFileUpload, hf]
  · intro f h
    cases file with
    | none => simp [handleFileUpload] at h
    | some g =>
      by_cases hg : g.mime ∈ validTypes
      · simp [handleFileUpload, hg] at h
        exact h ▸ hg
      · simp [handleFileUpload, hg] at h

/-- C9 at a plain-text file: the upload error is set and no request is
issued. -/
theorem c9_upload_validation_witness :
    handleFileUpload (some ⟨"resume.txt", "text/plain"⟩) ⟨none, false, ""⟩
      = ({ uploadError := some "Please upload a PDF or DOCX file",
           uploading := false, resumeText := "" }, none) :=
  (c9_upload_validation (some ⟨"resume.txt", "text/plain"⟩) ⟨none, false, ""⟩).2.1
    ⟨"resume.txt", "text/plain"⟩ rfl (by decide)

/-! ## Hybrid Scorer (modelled from the spec)

The backend matching engine is absent from the repository snapshot (the spec
itself notes the source repository does not include this backend verbatim),
so the scorer of section 4.4 is modelled from the specification text. -/

/-- Modelled from the spec: proficiency levels of section 3, ordered
none < beginner < intermediate < proficient < expert. -/
inductive Level where
  | lvlNone
  | beginner
  | intermediate
  | proficient
  | expert
  deriving DecidableEq, Repr

/-- Numeric rank of a proficiency level. -/
def Level.rank : Level → Nat
  | .lvlNone => 0
  | .beginner => 1
  | .intermediate => 2
  | .proficient => 3
  | .expert => 4

/-- Modelled from the spec: a canonicalized skill with its proficiency level
and years of experience (section 3). -/
structure Skill where
  name : String
  level : Level
  years : ℚ
  deriving DecidableEq, Repr

/-- Looks a skill up by canonical name in a skill list. -/
def lookupSkill (ss : List Skill) (n : String) : Option Skill :=
  ss.find? fun s => s.name == n

/-- Modelled from the spec: a fetched job posting (section 3), reduced to the
fields the scorer touches. -/
structure Posting where
  id : String
  title : String
  company : String
  description : String
  deriving DecidableEq, Repr

/-- Modelled from the spec: per-required-skill point budget, 40 divided by
the number of required skills, at least one (section 4.4). -/
def perSkillPoints (n : Nat) : ℚ := 40 / (max 1 n : Nat)

/-- Modelled from the spec: credit factor for one required skill — full
credit when the resume level is at least the required level, half credit
when exactly one tier below, zero otherwise or when absent (section 4.4). -/
def levelCredit (resumeSkill : Option Skill) (required : Level) : ℚ :=
  match resumeSkill with
  | none => 0
  | some s =>
    if required.rank ≤ s.level.rank then 1
    else if s.level.rank + 1 = required.rank then 1 / 2
    else 0

/-- Modelled from the spec: the skill-overlap component, summed per required
skill and capped at 40 (section 4.4). -/
def skillScore (resumeSkills postingSkills : List Skill) : ℚ :=
  min 40 ((postingSkills.map fun req =>
    levelCredit (lookupSkill resumeSkills req.name) req.level
      * perSkillPoints postingSkills.length).sum)

/-- Modelled from the spec: names of required skills entirely absent from
the resume (sections 3 and 4.4). -/
def missingRequired (resumeSkills postingSkills : List Skill) : List String :=
  (postingSkills.filter fun req =>
    (lookupSkill resumeSkills req.name).isNone).map Skill.name

/-- Modelled from the spec: fixed per-missing-skill penalty; the spec gives
the numeric weights of section 4.4 as a default policy. -/
def perSkillPenalty : ℚ := 5

/-- Modelled from the spec: the missing-skill penalty, capped at 20
(section 4.4). -/
def penaltyScore (resumeSkills postingSkills : List Skill) : ℚ :=
  min 20 ((missingRequired resumeSkills postingSkills).length * perSkillPenalty)

/-- Resume skills whose canonical name occurs among the posting skills. -/
def matchedUnsorted (resumeSkills postingSkills : List Skill) : List Skill :=
  resumeSkills.filter fun s => (lookupSkill postingSkills s.name).isSome

/-- Ordering key of matched skills: descending resume level, then name. -/
def skillBefore (a b : Skill) : Bool :=
  decide (b.level.rank < a.level.rank
    ∨ (a.level.rank = b.level.rank ∧ a.name ≤ b.name))

/-- Insertion step of the matched-skill sort. -/
def insertSkill (a : Skill) : List Skill → List Skill
  | [] => [a]
  | b :: rest => if skillBefore a b then a :: b :: rest else b :: insertSkill a rest

/-- Sorts matched skills by descending resume level then name (section 3). -/
def sortSkills : List Skill → List Skill
  | [] => []
  | a :: rest => insertSkill a (sortSkills rest)

/-- Modelled from the spec: the matched-skill sequence of a MatchResult,
resume skills present in the posting, ordered by descending resume level
then name (section 3). -/
def matchedSkills (resumeSkills postingSkills : List Skill) : List Skill :=
  sortSkills (matchedUnsorted resumeSkills postingSkills)

/-- Rounding to one decimal, as the spec requires for the semantic score. -/
def round1 (q : ℚ) : ℚ := ((⌊q * 10 + 1 / 2⌋ : ℤ) : ℚ) / 10

/-- Clamp to a closed interval. -/
def clamp (x lo hi : ℚ) : ℚ := min hi (max lo x)

/-- Modelled from the spec: a MatchResult (section 3), without the opaque
explanation text filled in later by the orchestrator. -/
structure MatchResult where
  posting_id : String
  match_score : ℚ
  semantic_score : ℚ
  skill_score : ℚ
  penalty : ℚ
  recommendation : String
  matched_skills : List Skill
  missing_required_skills : List String
  deriving DecidableEq, Repr

/-- Modelled from the spec: the Hybrid Scorer contract of section 4.4,
taking the cosine similarity of the resume and posting vectors as a number
in place of the vectors themselves. -/
def scoreMatch (sim : ℚ) (resumeSkills : List Skill) (posting : Posting)
    (postingSkills : List Skill) : MatchResult :=
  let sem := round1 (sim * 50)
  let sk := skillScore resumeSkills postingSkills
  let pen := penaltyScore resumeSkills postingSkills
  let ms := clamp (sem + sk - pen) 0 100
  { posting_id := posting.id
    match_score := ms
    semantic_score := sem
    skill_score := sk
    penalty := pen
    recommendation := recommendation ms
    matched_skills := matchedSkills resumeSkills postingSkills
    missing_required_skills := missingRequired resumeSkills postingSkills }

/-- C2: for every scored posting the match score equals the clamp to the
interval 0 to 100 of semantic score plus skill score minus penalty, and is
therefore itself between 0 and 100. -/
theorem c2_match_score_clamp (sim : ℚ) (rs : List Skill) (p : Posting)
    (ps : List Skill) :
    (scoreMatch sim rs p ps).match_score
      = clamp ((scoreMatch sim rs p ps).semantic_score
          + (scoreMatch sim rs p ps).skill_score
          - (scoreMatch sim rs p ps).penalty) 0 100
    ∧ 0 ≤ (scoreMatch sim rs p ps).match_score
    ∧ (scoreMatch sim rs p ps).match_score ≤ 100 := by
  refine ⟨rfl, ?_, ?_⟩
  · exact le_min (by norm_num) (le_max_left 0 _)
  · exact min_le_left 100 _

theorem mem_insertSkill {s a : Skill} {l : List Skill} :
    s ∈ insertSkill a l ↔ s = a ∨ s ∈ l := by
  induction l with
  | nil => simp [insertSkill]
  | cons b rest ih =>
    unfold insertSkill
    by_cases h : skillBefore a b = true
    · simp [h]
    · simp [h, ih]
      tauto

theorem mem_sortSkills {s : Skill} {l : List Skill} :
    s ∈ sortSkills l ↔ s ∈ l := by
  induction l with
  | nil => simp [sortSkills]
  | cons a rest ih => simp [sortSkills, mem_insertSkill, ih]

/-- C3: the matched skills and the missing required skills of the same
scored posting are disjoint — no skill name appears in both sequences. -/
theorem c3_matched_missing_disjoint (sim : ℚ) (rs : List Skill) (p : Posting)
    (ps : List Skill) (s : Skill)
    (hs : s ∈ (scoreMatch sim rs p ps).matched_skills) :
    s.name ∉ (scoreMatch sim rs p ps).missing_required_skills := by
  intro hmiss
  have hs0 : s ∈ matchedSkills rs ps := hs
  have hs1 : s ∈ matchedUnsorted rs ps := by
    simpa [matchedSkills, mem_sortSkills] using hs0
  have hsrs : s ∈ rs := (List.mem_filter.mp hs1).1
  have hmiss0 : s.name ∈ missingRequired rs ps := hmiss
  obtain ⟨req, hreqmem, hreqname⟩ := List.mem_map.mp hmiss0
  have hreq2 := List.mem_filter.mp hreqmem
  have hnone : lookupSkill rs req.name = none :=
    Option.isNone_iff_eq_none.mp hreq2.2
  have hall : ∀ x ∈ rs, ¬ (x.name == req.name) = true :=
    List.find?_eq_none.mp hnone
  apply hall s hsrs
  rw [hreqname]
  exact beq_self_eq_true s.name

/-- The resume and posting of the spec test vector of section 8: a resume
knowing python at expert level against a posting requiring python and docker
at intermediate level. -/
def demoResumeSkills : List Skill := [⟨"python", Level.expert, 5⟩]

def demoPostingSkills : List Skill :=
  [⟨"python", Level.intermediate, 0⟩, ⟨"docker", Level.intermediate, 0⟩]

def demoPosting : Posting := ⟨"p1", "Backend Engineer", "Acme", "python docker"⟩

/-- C3 on the spec test vector of section 8: python is matched and therefore
not among the missing required skills. -/
theorem c3_matched_missing_disjoint_witness :
    (⟨"python", Level.expert, 5⟩ : Skill).name
      ∉ (scoreMatch (4 / 5) demoResumeSkills demoPosting
          demoPostingSkills).missing_required_skills :=
  c3_matched_missing_disjoint (4 / 5) demoResumeSkills demoPosting
    demoPostingSkills ⟨"python", Level.expert, 5⟩ (by decide)

/-! ## Scorer determinism (modelled from the spec)

The spec treats the text encoder as a pure function from text to vector and
allows an implementation to cache embeddings; the scorer must be
deterministic given fixed embeddings.  The scorer is therefore embedded once
more in stateful form, threading an embedding cache, and re-scoring is shown
to give identical results. -/

/-- An embedding vector. -/
abbrev Vec := List ℚ

/-- Embedding lookup with a cache: a hit returns the cached vector, a miss
computes the embedding with the encoder and records it. -/
def getVec (emb : String → Vec) (cache : List (String × Vec)) (s : String) :
    Vec × List (String × Vec) :=
  match cache.find? (fun e => e.1 == s) with
  | some e => (e.2, cache)
  | none => (emb s, (s, emb s) :: cache)

/-- A cache is well formed for an encoder when every cached vector is the
encoder output for its key. -/
def WellFormedCache (emb : String → Vec) (cache : List (String × Vec)) : Prop :=
  ∀ e ∈ cache, e.2 = emb e.1

theorem getVec_fst {emb : String → Vec} {cache : List (String × Vec)}
    (h : WellFormedCache emb cache) (s : String) :
    (getVec emb cache s).1 = emb s := by
  unfold getVec
  cases hf : cache.find? (fun e => e.1 == s) with
  | none => rfl
  | some e =>
    have hmem : e ∈ cache := List.mem_of_find?_eq_some hf
    have hkey := List.find?_some hf
    show (e.2, cache).1 = emb s
    rw [h e hmem, eq_of_beq hkey]

theorem getVec_wf {emb : String → Vec} {cache : List (String × Vec)}
    (h : WellFormedCache emb cache) (s : String) :
    WellFormedCache emb (getVec emb cache s).2 := by
  unfold getVec
  cases hf : cache.find? (fun e => e.1 == s) with
  | none =>
    intro e he
    rcases List.mem_cons.mp he with rfl | he'
    · rfl
    · exact h e he'
  | some e => exact h

/-- Modelled from the spec: the scorer invoked through the embedding cache,
computing the resume and posting vectors (cached), their similarity, and
then the pure score of section 4.4. -/
def scoreStateful (simFn : Vec → Vec → ℚ) (emb : String → Vec)
    (cache : List (String × Vec)) (resumeText : String)
    (resumeSkills : List Skill) (posting : Posting)
    (postingSkills : List Skill) : MatchResult × List (String × Vec) :=
  let r1 := getVec emb cache resumeText
  let r2 := getVec emb r1.2 posting.description
  (scoreMatch (simFn r1.1 r2.1) resumeSkills posting postingSkills, r2.2)

theorem scoreStateful_fst {simFn : Vec → Vec → ℚ} {emb : String → Vec}
    {cache : List (String × Vec)} (h : WellFormedCache emb cache)
    (rt : String) (rs : List Skill) (p : Posting) (ps : List Skill) :
    (scoreStateful simFn emb cache rt rs p ps).1
      = scoreMatch (simFn (emb rt) (emb p.description)) rs p ps := by
  simp only [scoreStateful]
  rw [getVec_fst h, getVec_fst (getVec_wf h rt)]

theorem scoreStateful_wf {simFn : Vec → Vec → ℚ} {emb : String → Vec}
    {cache : List (String × Vec)} (h : WellFormedCache emb cache)
    (rt : String) (rs : List Skill) (p : Posting) (ps : List Skill) :
    WellFormedCache emb (scoreStateful simFn emb cache rt rs p ps).2 :=
  getVec_wf (getVec_wf h rt) p.description

/-- C7: scoring is deterministic and idempotent — with a fixed encoder and a
well-formed embedding cache, scoring the same resume and posting twice in
sequence (the second call reusing the cache left by the first) yields
identical MatchResult values. -/
theorem c7_score_idempotent (simFn : Vec → Vec → ℚ) (emb : String → Vec)
    (cache : List (String × Vec)) (rt : String) (rs : List Skill)
    (p : Posting) (ps : List Skill) (h : WellFormedCache emb cache) :
    (scoreStateful simFn emb cache rt rs p ps).1
      = (scoreStateful simFn emb (scoreStateful simFn emb cache rt rs p ps).2
          rt rs p ps).1 :=
  (scoreStateful_fst h rt rs p ps).trans
    (scoreStateful_fst (scoreStateful_wf h rt rs p ps) rt rs p ps).symm

/-- A fixed demonstration encoder and similarity for the C7 witness. -/
def demoEmb : String → Vec := fun _ => [1]

def demoSim : Vec → Vec → ℚ := fun _ _ => 1 / 2

/-- C7 on concrete inputs, starting from the empty (well-formed) cache. -/
theorem c7_score_idempotent_witness :
    (scoreStateful demoSim demoEmb [] "resume" demoResumeSkills demoPosting
        demoPostingSkills).1
      = (scoreStateful demoSim demoEmb
          (scoreStateful demoSim demoEmb [] "resume" demoResumeSkills
            demoPosting demoPostingSkills).2
          "resume" demoResumeSkills demoPosting demoPostingSkills).1 :=
  c7_score_idempotent demoSim demoEmb [] "resume" demoResumeSkills demoPosting
    demoPostingSkills (fun e he => absurd he (List.not_mem_nil e))

/-! ## Cache and request coordinator (modelled from the spec) -/

/-- Modelled from the spec: the cache TTL of 24 hours (sections 3 and 4.6),
in seconds. -/
def cacheTtl : Nat := 86400

/-- Modelled from the spec: the get-or-compute contract of section 4.6 with
an injected clock, over a store of fingerprint, fetch time and value
triples.  A hit within the TTL returns the stored value; a stale or missing
entry is recomputed, stored with the current time, and the stale entry
evicted.  The third component reports whether the cache was used. -/
def getOrCompute {α : Type} (now : Nat) (fp : String) (compute : Unit → α)
    (store : List (String × Nat × α)) :
    α × List (String × Nat × α) × Bool :=
  match store.find? (fun e => e.1 == fp) with
  | some e =>
    if now ≤ e.2.1 + cacheTtl then (e.2.2, store, true)
    else
      (compute (), (fp, now, compute ()) :: store.filter (fun x => ¬ x.1 == fp),
        false)
  | none => (compute (), (fp, now, compute ()) :: store, false)

/-- C4: a cache entry is never served past its fetch time plus the TTL —
whenever the cache is used the stored entry is within the TTL at the
current time — and a request arriving when the stored entry for the
fingerprint is older than the TTL ignores it and recomputes. -/
theorem c4_cache_ttl {α : Type} (now : Nat) (fp : String) (compute : Unit → α)
    (store : List (String × Nat × α)) :
    ((getOrCompute now fp compute store).2.2 = true →
      ∃ e ∈ store, (e.1 == fp) = true ∧ now ≤ e.2.1 + cacheTtl
        ∧ (getOrCompute now fp compute store).1 = e.2.2)
    ∧ (∀ e, store.find? (fun x => x.1 == fp) = some e →
        e.2.1 + cacheTtl < now →
        (getOrCompute now fp compute store).1 = compute ()
          ∧ (getOrCompute now fp compute store).2.2 = false) := by
  constructor
  · intro hused
    cases hf : store.find? (fun e => e.1 == fp) with
    | none => simp [getOrCompute, hf] at hused
    | some e =>
      by_cases ht : now ≤ e.2.1 + cacheTtl
      · have hkey := List.find?_some hf
        exact ⟨e, List.mem_of_find?_eq_some hf, hkey, ht,
          by simp [getOrCompute, hf, ht]⟩
      · simp [getOrCompute, hf, ht] at hused
  · intro e hf ht
    have ht' : ¬ now ≤ e.2.1 + cacheTtl := by omega
    constructor <;> simp [getOrCompute, hf, ht']

/-- C4 on a concrete store: an entry fetched at time 0 is stale one second
past the TTL, so the value is recomputed and the cache is not used. -/
theorem c4_cache_ttl_witness :
    (getOrCompute 86401 "fp1" (fun _ => (7 : Nat)) [("fp1", 0, 42)]).1 = 7
    ∧ (getOrCompute 86401 "fp1" (fun _ => (7 : Nat)) [("fp1", 0, 42)]).2.2
        = false :=
  (c4_cache_ttl 86401 "fp1" (fun _ => (7 : Nat)) [("fp1", 0, 42)]).2
    ("fp1", 0, 42) (by decide) (by decide)

/-! ## Single-flight request collapsing (modelled from the spec) -/

/-- Modelled from the spec: events observed by the request coordinator of
section 4.6 — a caller arriving with a fingerprint whose cache lookup
missed, and an in-flight computation settling with its result. -/
inductive FlightEvent where
  | arrive (fp : String)
  | settle (fp : String) (v : Nat)
  deriving DecidableEq, Repr

/-- Modelled from the spec: coordinator state — fingerprints with an
in-flight computation, the log of launched computations, the callers
currently waiting (one entry per caller, the initiator included), and for
each settled computation the fingerprint, result and number of callers the
result was delivered to. -/
structure FlightState where
  inflight : List String
  launches : List String
  waiting : List String
  served : List (String × Nat × Nat)
  deriving DecidableEq, Repr

/-- Modelled from the spec: the single-flight transition of sections 4.6 and
9 — a caller arriving for an in-flight fingerprint attaches as a waiter
instead of launching new work; otherwise the computation is launched and
registered; a settling computation is deregistered and its result delivered
to every waiter of that fingerprint. -/
def flightStep (st : FlightState) (e : FlightEvent) : FlightState :=
  match e with
  | .arrive fp =>
    if fp ∈ st.inflight then { st with waiting := fp :: st.waiting }
    else { st with
      inflight := fp :: st.inflight
      launches := fp :: st.launches
      waiting := fp :: st.waiting }
  | .settle fp v =>
    { st with
      inflight := st.inflight.erase fp
      waiting := st.waiting.filter (fun w => ¬ w == fp)
      served := (fp, v, st.waiting.count fp) :: st.served }

/-- Runs the coordinator from the idle state over a sequence of events. -/
def flightRun (events : List FlightEvent) : FlightState :=
  events.foldl flightStep ⟨[], [], [], []⟩

theorem flightStep_nodup (st : FlightState) (e : FlightEvent)
    (h : st.inflight.Nodup) : (flightStep st e).inflight.Nodup := by
  cases e with
  | arrive fp =>
    by_cases hm : fp ∈ st.inflight
    · simpa [flightStep, hm] using h
    · simpa [flightStep, hm] using List.Nodup.cons hm h
  | settle fp v => exact List.Nodup.erase fp h

theorem flightFold_nodup (events : List FlightEvent) (st : FlightState)
    (h : st.inflight.Nodup) :
    (events.foldl flightStep st).inflight.Nodup := by
  induction events generalizing st with
  | nil => exact h
  | cons e rest ih => exact ih (flightStep st e) (flightStep_nodup st e h)

/-- C5: at most one computation runs concurrently per fingerprint — the
in-flight set never holds a fingerprint twice under any event
interleaving — and for two concurrent requests with the same fingerprint,
exactly one computation is launched and its settled result is delivered to
both callers. -/
theorem c5_single_flight (fp : String) (v : Nat) (events : List FlightEvent) :
    ((flightRun [.arrive fp, .arrive fp, .settle fp v]).launches.count fp = 1
      ∧ (flightRun [.arrive fp, .arrive fp, .settle fp v]).served = [(fp, v, 2)])
    ∧ (flightRun events).inflight.Nodup := by
  constructor
  · have h1 : fp ∉ ([] : List String) := List.not_mem_nil fp
    constructor <;>
      simp [flightRun, flightStep, List.count_cons]
  · exact flightFold_nodup events ⟨[], [], [], []⟩ List.nodup_nil

end CareerGenie
